import Mathlib

/-!
# Profiling flags of package commander (commander.go)

A shallow embedding of the package-level variables, of `Init` and of `Close`.

The outside world (packages os, runtime and runtime/pprof) is not part of the
package.  Every call into it is recorded as an `Event`, and the value the call
returns is read from an environment (`InitEnv`, `CloseEnv`) that the theorems
quantify over: one field per call site of the source, each call site being
executed at most once per run of `Init` or `Close`.

* A Go `error` is an `Option Error`, `none` for nil; a `*os.File` variable is an
  `Option File`, `none` for nil.
* `os.Create` returns either a file or an error (`CreateResult`).  That it never
  returns the same file object twice is not built in: where a statement needs
  it, it is a hypothesis on the log (`(createdFiles log).Nodup`).
* `Init` and `Close` return the new value of the package variables together with
  the list of the calls they made, oldest first.
-/

namespace Commander

/-! ## Data -/

/-- Identity of an os.File object (the pointer value of a non-nil `*os.File`). -/
structure File where
  id : Nat
  deriving DecidableEq, Repr, Inhabited

/-- A non-nil Go `error` value, identified with its message. -/
structure Error where
  msg : String
  deriving DecidableEq, Repr, Inhabited

instance : Nonempty File := ⟨⟨0⟩⟩

instance : Nonempty Error := ⟨⟨""⟩⟩

/-- The four profile kinds, in the order in which `Init` and `Close` treat them. -/
inductive Slot where
  | cpu
  | heap
  | thread
  | block
  deriving DecidableEq, Repr, Inhabited

instance : Nonempty Slot := ⟨.cpu⟩

/-- Position of a slot in the source order CPU, Heap, Thread, Block. -/
def Slot.idx : Slot → Nat
  | .cpu => 0
  | .heap => 1
  | .thread => 2
  | .block => 3

instance : LT Slot := ⟨fun a b => a.idx < b.idx⟩

instance : LE Slot := ⟨fun a b => a.idx ≤ b.idx⟩

instance (a b : Slot) : Decidable (a < b) := inferInstanceAs (Decidable (a.idx < b.idx))

instance (a b : Slot) : Decidable (a ≤ b) := inferInstanceAs (Decidable (a.idx ≤ b.idx))

/-- Result of `os.Create`: a non-nil file and a nil error, or a non-nil error. -/
inductive CreateResult where
  | ok (f : File)
  | error (e : Error)
  deriving DecidableEq, Repr, Inhabited

instance : Nonempty CreateResult := ⟨.ok ⟨0⟩⟩

/-- A call made by the package into os, runtime or runtime/pprof, with its result.
An `Option Error` result is Go `error`: `none` is nil. -/
inductive Action where
  /-- The call `os.Create(path)`. -/
  | create (path : String) (r : CreateResult)
  /-- The call `pprof.StartCPUProfile(f)`. -/
  | startCPUProfile (f : File) (r : Option Error)
  /-- The call `pprof.StopCPUProfile()`. -/
  | stopCPUProfile
  /-- The call `runtime.GC()`. -/
  | gc
  /-- The call `pprof.Lookup(profile).WriteTo(f, 0)`. -/
  | writeTo (profile : String) (f : File) (r : Option Error)
  /-- The call `f.Close()`. -/
  | close (f : File) (r : Option Error)
  deriving DecidableEq, Repr, Inhabited

/-- An action together with the slot whose `if` block of the source issued it. -/
structure Event where
  slot : Slot
  act : Action
  deriving DecidableEq, Repr, Inhabited

/-- The eight package-level variables (commander.go lines 10-26).
A handle is `none` when the Go variable is nil. -/
structure State where
  CPUProfileFlag : String
  cpuProfileFile : Option File
  HeapProfileFlag : String
  heapProfileFile : Option File
  ThreadProfileFlag : String
  threadProfileFile : Option File
  BlockProfileFlag : String
  blockProfileFile : Option File
  deriving DecidableEq, Repr, Inhabited

/-- The flag variable of a slot. -/
def State.flag (s : State) : Slot → String
  | .cpu => s.CPUProfileFlag
  | .heap => s.HeapProfileFlag
  | .thread => s.ThreadProfileFlag
  | .block => s.BlockProfileFlag

/-- The file variable of a slot. -/
def State.handle (s : State) : Slot → Option File
  | .cpu => s.cpuProfileFile
  | .heap => s.heapProfileFile
  | .thread => s.threadProfileFile
  | .block => s.blockProfileFile

/-- The state of the package when the program starts: Go zero values, that is
empty flags and nil files. -/
def State.initial : State :=
  { CPUProfileFlag := "", cpuProfileFile := none,
    HeapProfileFlag := "", heapProfileFile := none,
    ThreadProfileFlag := "", threadProfileFile := none,
    BlockProfileFlag := "", blockProfileFile := none }

/-- What the outside world answers to the calls of one run of `Init`, one field
per call site (a call site is executed at most once per run). -/
structure InitEnv where
  /-- Line 46, `os.Create(CPUProfileFlag)`. -/
  createCPU : CreateResult
  /-- Line 50, `pprof.StartCPUProfile(f)`. -/
  startCPU : Option Error
  /-- Line 52, `f.Close()` (the result is discarded). -/
  closeCPU : Option Error
  /-- Line 58, `os.Create(HeapProfileFlag)`. -/
  createHeap : CreateResult
  /-- Line 65, `os.Create(ThreadProfileFlag)`. -/
  createThread : CreateResult
  /-- Line 72, `os.Create(BlockProfileFlag)`. -/
  createBlock : CreateResult
  deriving DecidableEq, Repr, Inhabited

/-- The answer to the `os.Create` call of a slot. -/
def InitEnv.create (env : InitEnv) : Slot → CreateResult
  | .cpu => env.createCPU
  | .heap => env.createHeap
  | .thread => env.createThread
  | .block => env.createBlock

/-- What the outside world answers to the calls of one run of `Close`.  All
these results are discarded by the source. -/
structure CloseEnv where
  /-- Line 87, `cpuProfileFile.Close()`. -/
  closeCPU : Option Error
  /-- Line 93, `pprof.Lookup("heap").WriteTo(heapProfileFile, 0)`. -/
  writeHeap : Option Error
  /-- Line 94, `heapProfileFile.Close()`. -/
  closeHeap : Option Error
  /-- Line 98, `pprof.Lookup("threadcreate").WriteTo(threadProfileFile, 0)`. -/
  writeThread : Option Error
  /-- Line 99, `threadProfileFile.Close()`. -/
  closeThread : Option Error
  /-- Line 103, `pprof.Lookup("block").WriteTo(blockProfileFile, 0)`. -/
  writeBlock : Option Error
  /-- Line 104, `blockProfileFile.Close()`. -/
  closeBlock : Option Error
  deriving DecidableEq, Repr, Inhabited

/-- Outcome of a run (or of a part of a run) of `Init`: the returned error
(`none` is nil, for a part: "no return yet"), the package variables afterwards
and the calls made, oldest first. -/
structure InitResult where
  err : Option Error
  state : State
  events : List Event
  deriving DecidableEq, Repr, Inhabited

/-- Outcome of a run of `Close`, which returns nothing. -/
structure CloseResult where
  state : State
  events : List Event
  deriving DecidableEq, Repr, Inhabited

/-! ## Init -/

/-- Lines 45-56 of `Init`: the CPU block. -/
def initCPU (env : InitEnv) (s : State) : InitResult :=
  if s.CPUProfileFlag ≠ "" then
    match env.createCPU with
    | .error err =>
      ⟨some err, s, [⟨.cpu, .create s.CPUProfileFlag (.error err)⟩]⟩
    | .ok f =>
      match env.startCPU with
      | some err =>
        ⟨some err, s,
          [⟨.cpu, .create s.CPUProfileFlag (.ok f)⟩,
           ⟨.cpu, .startCPUProfile f (some err)⟩,
           ⟨.cpu, .close f env.closeCPU⟩]⟩
      | none =>
        ⟨none, { s with cpuProfileFile := some f },
          [⟨.cpu, .create s.CPUProfileFlag (.ok f)⟩,
           ⟨.cpu, .startCPUProfile f none⟩]⟩
  else ⟨none, s, []⟩

/-- Lines 57-63 of `Init`: the heap block. -/
def initHeap (env : InitEnv) (s : State) : InitResult :=
  if s.HeapProfileFlag ≠ "" then
    match env.createHeap with
    | .error err =>
      ⟨some err, s, [⟨.heap, .create s.HeapProfileFlag (.error err)⟩]⟩
    | .ok f =>
      ⟨none, { s with heapProfileFile := some f },
        [⟨.heap, .create s.HeapProfileFlag (.ok f)⟩]⟩
  else ⟨none, s, []⟩

/-- Lines 64-70 of `Init`: the thread block. -/
def initThread (env : InitEnv) (s : State) : InitResult :=
  if s.ThreadProfileFlag ≠ "" then
    match env.createThread with
    | .error err =>
      ⟨some err, s, [⟨.thread, .create s.ThreadProfileFlag (.error err)⟩]⟩
    | .ok f =>
      ⟨none, { s with threadProfileFile := some f },
        [⟨.thread, .create s.ThreadProfileFlag (.ok f)⟩]⟩
  else ⟨none, s, []⟩

/-- Lines 71-77 of `Init`: the block-profile block. -/
def initBlock (env : InitEnv) (s : State) : InitResult :=
  if s.BlockProfileFlag ≠ "" then
    match env.createBlock with
    | .error err =>
      ⟨some err, s, [⟨.block, .create s.BlockProfileFlag (.error err)⟩]⟩
    | .ok f =>
      ⟨none, { s with blockProfileFile := some f },
        [⟨.block, .create s.BlockProfileFlag (.ok f)⟩]⟩
  else ⟨none, s, []⟩

/-- Sequencing inside `Init`: a `return err` of the first part ends the run,
otherwise the next part runs on the state the first part left. -/
def InitResult.andThen (r : InitResult) (next : State → InitResult) : InitResult :=
  match r.err with
  | some err => ⟨some err, r.state, r.events⟩
  | none =>
    let r2 := next r.state
    ⟨r2.err, r2.state, r.events ++ r2.events⟩

/-- The function `Init` (lines 44-79): the four blocks in sequence, then
`return nil`. -/
def Init (env : InitEnv) (s : State) : InitResult :=
  (((initCPU env s).andThen (initHeap env)).andThen (initThread env)).andThen (initBlock env)

/-! ## Close -/

/-- Lines 85-89 of `Close`: the CPU block. -/
def closeCPU (env : CloseEnv) (s : State) : CloseResult :=
  match s.cpuProfileFile with
  | some f =>
    ⟨{ s with cpuProfileFile := none },
      [⟨.cpu, .stopCPUProfile⟩, ⟨.cpu, .close f env.closeCPU⟩]⟩
  | none => ⟨s, []⟩

/-- Lines 90-96 of `Close`: the heap block. -/
def closeHeap (env : CloseEnv) (s : State) : CloseResult :=
  match s.heapProfileFile with
  | some f =>
    ⟨{ s with heapProfileFile := none },
      [⟨.heap, .gc⟩, ⟨.heap, .writeTo "heap" f env.writeHeap⟩,
       ⟨.heap, .close f env.closeHeap⟩]⟩
  | none => ⟨s, []⟩

/-- Lines 97-101 of `Close`: the thread block. -/
def closeThread (env : CloseEnv) (s : State) : CloseResult :=
  match s.threadProfileFile with
  | some f =>
    ⟨{ s with threadProfileFile := none },
      [⟨.thread, .writeTo "threadcreate" f env.writeThread⟩,
       ⟨.thread, .close f env.closeThread⟩]⟩
  | none => ⟨s, []⟩

/-- Lines 102-106 of `Close`: the block-profile block. -/
def closeBlock (env : CloseEnv) (s : State) : CloseResult :=
  match s.blockProfileFile with
  | some f =>
    ⟨{ s with blockProfileFile := none },
      [⟨.block, .writeTo "block" f env.writeBlock⟩,
       ⟨.block, .close f env.closeBlock⟩]⟩
  | none => ⟨s, []⟩

/-- Sequencing inside `Close`: the next block always runs, on the state the
previous blocks left. -/
def CloseResult.andThen (r : CloseResult) (next : State → CloseResult) : CloseResult :=
  let r2 := next r.state
  ⟨r2.state, r.events ++ r2.events⟩

/-- The function `Close` (lines 84-107): the four blocks in sequence. -/
def Close (env : CloseEnv) (s : State) : CloseResult :=
  (((closeCPU env s).andThen (closeHeap env)).andThen (closeThread env)).andThen (closeBlock env)

/-! ## Reading the log -/

/-- The files returned by the successful `os.Create` calls of a log, oldest first. -/
def createdFiles : List Event → List File
  | [] => []
  | ⟨_, .create _ (.ok f)⟩ :: l => f :: createdFiles l
  | _ :: l => createdFiles l

/-- The files on which a log calls `Close`, oldest first. -/
def closedFiles : List Event → List File
  | [] => []
  | ⟨_, .close f _⟩ :: l => f :: closedFiles l
  | _ :: l => closedFiles l

/-- Whether an action is a call of `os.Create`. -/
def Action.isCreate : Action → Bool
  | .create _ _ => true
  | _ => false

/-- Whether an event is a write of the heap profile. -/
def Event.isHeapWrite (ev : Event) : Bool :=
  match ev.act with
  | .writeTo profile _ _ => profile == "heap"
  | _ => false

/-! ## The calls of `Close` in the words of the specification -/

/-- The calls `Close` makes for one active slot whose handle is the file f, in
the words of the specification.  CPU: stop sampling, close the file.  Heap: force
a garbage collection, write the heap snapshot, close.  Thread: write the
thread-creation snapshot, close.  Block: write the contention snapshot, close. -/
def closeActionsSpec (env : CloseEnv) (f : File) : Slot → List Action
  | .cpu => [.stopCPUProfile, .close f env.closeCPU]
  | .heap => [.gc, .writeTo "heap" f env.writeHeap, .close f env.closeHeap]
  | .thread => [.writeTo "threadcreate" f env.writeThread, .close f env.closeThread]
  | .block => [.writeTo "block" f env.writeBlock, .close f env.closeBlock]

/-- The calls `Close` makes for one slot in the words of the specification:
none when the slot is not active (nil handle), `closeActionsSpec` otherwise. -/
def closeSlotSpec (env : CloseEnv) (s : State) (X : Slot) : List Event :=
  match s.handle X with
  | none => []
  | some f => (closeActionsSpec env f X).map (Event.mk X)

/-! ## Blocks and runs -/

/-- The block of `Init` that belongs to a slot, run on its own. -/
def initSlot (env : InitEnv) (s : State) : Slot → InitResult
  | .cpu => initCPU env s
  | .heap => initHeap env s
  | .thread => initThread env s
  | .block => initBlock env s

/-- One action of the host program on the package: it assigns the four flags
(through `RegisterFlags` and flag parsing, or directly), or calls `Init`, or
calls `Close`.  A call comes with the answers of the outside world. -/
inductive Step where
  | setFlags (cpu heap thread block : String)
  | init (env : InitEnv)
  | close (env : CloseEnv)
  deriving DecidableEq, Repr, Inhabited

/-- Effect of one step on the package variables and on the log of all calls
made so far. -/
def step (r : State × List Event) : Step → State × List Event
  | .setFlags c h t b =>
    ({ r.1 with CPUProfileFlag := c, HeapProfileFlag := h, ThreadProfileFlag := t,
                BlockProfileFlag := b }, r.2)
  | .init env => ((Init env r.1).state, r.2 ++ (Init env r.1).events)
  | .close env => ((Close env r.1).state, r.2 ++ (Close env r.1).events)

/-- The state reached and the calls made by a sequence of steps, from the state
in which the program starts. -/
def exec (steps : List Step) : State × List Event :=
  steps.foldl step (State.initial, [])

/-! ## Sample inputs -/

/-- A state with the CPU and heap flags set and no open file. -/
def sampleState : State :=
  ⟨"cpu.out", none, "heap.out", none, "", none, "", none⟩

/-- An environment in which every call of `Init` succeeds. -/
def sampleEnvOk : InitEnv :=
  ⟨.ok ⟨1⟩, none, none, .ok ⟨2⟩, .ok ⟨3⟩, .ok ⟨4⟩⟩

/-- An environment in which the heap file cannot be created. -/
def sampleEnvHeapFails : InitEnv :=
  ⟨.ok ⟨1⟩, none, none, .error ⟨"permission denied"⟩, .ok ⟨3⟩, .ok ⟨4⟩⟩

/-- An environment in which the CPU file cannot be created. -/
def sampleEnvCPUFails : InitEnv :=
  ⟨.error ⟨"no such directory"⟩, none, none, .ok ⟨2⟩, .ok ⟨3⟩, .ok ⟨4⟩⟩

/-- An environment in which the profiler refuses to start. -/
def sampleEnvStartFails : InitEnv :=
  ⟨.ok ⟨1⟩, some ⟨"cpu profiling already in use"⟩, none, .ok ⟨2⟩, .ok ⟨3⟩, .ok ⟨4⟩⟩

/-- An environment in which every write and every close of `Close` fails. -/
def sampleCloseEnvFails : CloseEnv :=
  ⟨some ⟨"e1"⟩, some ⟨"e2"⟩, some ⟨"e3"⟩, some ⟨"e4"⟩, some ⟨"e5"⟩, some ⟨"e6"⟩, some ⟨"e7"⟩⟩

/-- An environment in which every call of `Close` succeeds. -/
def sampleCloseEnvOk : CloseEnv :=
  ⟨none, none, none, none, none, none, none⟩

/-- A run in which sampling first fails to start, and a later `Init` succeeds. -/
def sampleSteps : List Step :=
  [.setFlags "cpu.out" "heap.out" "" "", .init sampleEnvStartFails, .close sampleCloseEnvOk,
   .init ⟨.ok ⟨5⟩, none, none, .ok ⟨6⟩, .ok ⟨7⟩, .ok ⟨8⟩⟩]

set_option linter.unusedTactic false
set_option linter.unreachableTactic false
set_option linter.unnecessarySeqFocus false

/-! ## Slots -/

/-- Unfolding of the strict order of slots. -/
theorem Slot.lt_def (a b : Slot) : a < b ↔ a.idx < b.idx := Iff.rfl

/-- Unfolding of the order of slots. -/
theorem Slot.le_def (a b : Slot) : a ≤ b ↔ a.idx ≤ b.idx := Iff.rfl

/-- A statement about all slots is a statement about each of the four. -/
theorem Slot.forall_iff (P : Slot → Prop) :
    (∀ X, P X) ↔ P .cpu ∧ P .heap ∧ P .thread ∧ P .block :=
  ⟨fun h => ⟨h _, h _, h _, h _⟩, fun h X => by
    cases X
    · exact h.1
    · exact h.2.1
    · exact h.2.2.1
    · exact h.2.2.2⟩

/-- A slot with a property is one of the four. -/
theorem Slot.exists_iff (P : Slot → Prop) :
    (∃ X, P X) ↔ P .cpu ∨ P .heap ∨ P .thread ∨ P .block :=
  ⟨fun ⟨X, h⟩ => by
    cases X
    · exact Or.inl h
    · exact Or.inr (Or.inl h)
    · exact Or.inr (Or.inr (Or.inl h))
    · exact Or.inr (Or.inr (Or.inr h)),
   fun h => by
    rcases h with h | h | h | h
    · exact ⟨_, h⟩
    · exact ⟨_, h⟩
    · exact ⟨_, h⟩
    · exact ⟨_, h⟩⟩

/-! ## Sequencing -/

/-- A part of `Init` that returned an error ends the run. -/
theorem InitResult.andThen_some (e : Error) (st : State) (ev : List Event)
    (next : State → InitResult) :
    (InitResult.mk (some e) st ev).andThen next = ⟨some e, st, ev⟩ := rfl

/-- A part of `Init` that did not return is followed by the next part. -/
theorem InitResult.andThen_none (st : State) (ev : List Event) (next : State → InitResult) :
    (InitResult.mk none st ev).andThen next
      = ⟨(next st).err, (next st).state, ev ++ (next st).events⟩ := rfl

/-! ## Lists -/

/-- A list has at most one decomposition around an element with a property that
no other element of the list has. -/
theorem append_cons_unique {α : Type} (p : α → Prop) (A : List α) :
    ∀ (l1 : List α) (a b : α) (B l2 : List α),
      (∀ x ∈ A, ¬ p x) → (∀ x ∈ B, ¬ p x) → p b → A ++ a :: B = l1 ++ b :: l2 →
      l1 = A ∧ a = b ∧ B = l2 := by
  induction A with
  | nil =>
    intro l1 a b B l2 _ hB hb h
    cases l1 with
    | nil => simpa using h
    | cons x l1 =>
      simp only [List.nil_append, List.cons_append, List.cons.injEq] at h
      exact absurd hb (hB b (by rw [h.2]; simp))
  | cons y A ih =>
    intro l1 a b B l2 hA hB hb h
    cases l1 with
    | nil =>
      simp only [List.nil_append, List.cons_append, List.cons.injEq] at h
      exact absurd hb (h.1 ▸ hA y (by simp))
    | cons x l1 =>
      simp only [List.cons_append, List.cons.injEq] at h
      obtain ⟨h1, h2, h3⟩ :=
        ih l1 a b B l2 (fun x hx => hA x (by simp [hx])) hB hb h.2
      exact ⟨by rw [h.1, h1], h2, h3⟩

/-! ## Close, block by block -/

/-- The calls of `Close` are those of the four slots, one slot after the other,
each determined by the handle the slot had before the call. -/
theorem Close_events_eq (env : CloseEnv) (s : State) :
    (Close env s).events
      = closeSlotSpec env s .cpu ++ closeSlotSpec env s .heap
        ++ closeSlotSpec env s .thread ++ closeSlotSpec env s .block := by
  rcases s with ⟨cf, ch, hf, hh, tf, th, bf, bh⟩
  cases ch <;> cases hh <;> cases th <;> cases bh <;> rfl

/-- All handles are nil after `Close`. -/
theorem Close_handle (env : CloseEnv) (s : State) (X : Slot) :
    (Close env s).state.handle X = none := by
  rcases s with ⟨cf, ch, hf, hh, tf, th, bf, bh⟩
  cases ch <;> cases hh <;> cases th <;> cases bh <;> cases X <;> rfl

/-- The flags are not changed by `Close`. -/
theorem Close_flag (env : CloseEnv) (s : State) (X : Slot) :
    (Close env s).state.flag X = s.flag X := by
  rcases s with ⟨cf, ch, hf, hh, tf, th, bf, bh⟩
  cases ch <;> cases hh <;> cases th <;> cases bh <;> cases X <;> rfl

/-- Only the heap slot writes the heap profile. -/
theorem closeSlotSpec_not_heapWrite (env : CloseEnv) (s : State) (X : Slot)
    (hX : X ≠ .heap) : ∀ ev ∈ closeSlotSpec env s X, ¬ ev.isHeapWrite = true := by
  unfold closeSlotSpec
  cases s.handle X <;> cases X <;> simp_all [closeActionsSpec, Event.isHeapWrite]

/-- Only the heap slot forces a garbage collection. -/
theorem closeSlotSpec_not_gc (env : CloseEnv) (s : State) (X Y : Slot)
    (hX : X ≠ .heap) : (⟨Y, .gc⟩ : Event) ∉ closeSlotSpec env s X := by
  unfold closeSlotSpec
  cases s.handle X <;> cases X <;> simp_all [closeActionsSpec]

/-- The calls of `Close` that belong to a slot are those the specification lists
for it. -/
theorem Close_slot_events (env : CloseEnv) (s : State) (X : Slot) :
    (Close env s).events.filter (fun ev => ev.slot = X) = closeSlotSpec env s X := by
  rcases s with ⟨cf, ch, hf, hh, tf, th, bf, bh⟩
  cases ch <;> cases hh <;> cases th <;> cases bh <;> cases X <;> rfl

/-- The block of a slot reads only the flag and the handle of the slot and the
answers to its own calls. -/
theorem initSlot_congr (env1 env2 : InitEnv) (s1 s2 : State) (X : Slot)
    (hflag : s1.flag X = s2.flag X) (hhandle : s1.handle X = s2.handle X)
    (hcreate : env1.create X = env2.create X)
    (hcpu : X = .cpu → env1.startCPU = env2.startCPU ∧ env1.closeCPU = env2.closeCPU) :
    (initSlot env1 s1 X).err = (initSlot env2 s2 X).err
    ∧ (initSlot env1 s1 X).state.handle X = (initSlot env2 s2 X).state.handle X
    ∧ (initSlot env1 s1 X).events = (initSlot env2 s2 X).events := by
  rcases s1 with ⟨cf1, ch1, hf1, hh1, tf1, th1, bf1, bh1⟩
  rcases s2 with ⟨cf2, ch2, hf2, hh2, tf2, th2, bf2, bh2⟩
  rcases env1 with ⟨cc1, sc1, clc1, chp1, ct1, cb1⟩
  rcases env2 with ⟨cc2, sc2, clc2, chp2, ct2, cb2⟩
  cases X <;> simp only [State.flag, State.handle, InitEnv.create] at hflag hhandle hcreate
    <;> subst hflag hhandle hcreate
  · obtain ⟨rfl, rfl⟩ := hcpu rfl
    simp only [initSlot, initCPU]
    split_ifs <;> [skip; simp [State.handle]]
    cases cc1 <;> [cases sc1; skip] <;> simp [State.handle]
  · simp only [initSlot, initHeap]
    split_ifs <;> [skip; simp [State.handle]]
    cases chp1 <;> simp [State.handle]
  · simp only [initSlot, initThread]
    split_ifs <;> [skip; simp [State.handle]]
    cases ct1 <;> simp [State.handle]
  · simp only [initSlot, initBlock]
    split_ifs <;> [skip; simp [State.handle]]
    cases cb1 <;> simp [State.handle]

/-! ## Init, leaf by leaf -/

set_option maxHeartbeats 1000000 in
/-- What a failed `os.Create` call of slot X in a run of `Init` implies. -/
theorem Init_create_failure (env : InitEnv) (s : State) (X : Slot) (e : Error)
    (hfail : (⟨X, .create (s.flag X) (.error e)⟩ : Event) ∈ (Init env s).events) :
    (s.flag X ≠ "" ∧ env.create X = .error e
      ∧ (∀ Y, Y < X → s.flag Y ≠ "" → ∃ f, env.create Y = .ok f)
      ∧ (Slot.cpu < X → s.CPUProfileFlag ≠ "" → env.startCPU = none))
    ∧ (Init env s).err = some e
    ∧ (∀ Y, Y < X → s.flag Y ≠ "" →
        ∃ f, env.create Y = .ok f ∧ (Init env s).state.handle Y = some f
          ∧ (⟨Y, .create (s.flag Y) (.ok f)⟩ : Event) ∈ (Init env s).events)
    ∧ (∀ Z, X < Z → ∀ p r, (⟨Z, .create p r⟩ : Event) ∉ (Init env s).events)
    ∧ (∀ Z, X ≤ Z → (Init env s).state.handle Z = s.handle Z)
    ∧ (X = .cpu →
        (∀ Y f r, (⟨Y, .startCPUProfile f r⟩ : Event) ∉ (Init env s).events)
        ∧ ((∀ Z, s.handle Z = none) → ∀ Z, (Init env s).state.handle Z = none)) := by
  generalize hr : Init env s = r at hfail ⊢
  rcases s with ⟨cf, ch, hf, hh, tf, th, bf, bh⟩
  rcases env with ⟨cc, sc, clc, chp, ct, cb⟩
  unfold Init at hr
  ((((by_cases h1 : cf = "" <;> [skip; (cases cc <;> [cases sc; skip])])
      <;> simp [initCPU, h1, InitResult.andThen_some, InitResult.andThen_none] at hr)
      <;> [skip; skip;
          (subst hr; cases X <;> simp [State.flag] at hfail <;> subst hfail
             <;> simp [State.flag, State.handle, InitEnv.create, Slot.lt_def, Slot.le_def,
               Slot.idx, Slot.forall_iff, *]);
          (subst hr; cases X <;> simp [State.flag] at hfail <;> subst hfail
             <;> simp [State.flag, State.handle, InitEnv.create, Slot.lt_def, Slot.le_def,
               Slot.idx, Slot.forall_iff, *])])
    <;> ((((by_cases h2 : hf = "" <;> [skip; cases chp])
      <;> simp [initHeap, h2, InitResult.andThen_some, InitResult.andThen_none] at hr)
      <;> [skip; skip;
          (subst hr; cases X <;> simp [State.flag] at hfail <;> subst hfail
             <;> simp [State.flag, State.handle, InitEnv.create, Slot.lt_def, Slot.le_def,
               Slot.idx, Slot.forall_iff, *])])
    <;> ((((by_cases h3 : tf = "" <;> [skip; cases ct])
      <;> simp [initThread, h3, InitResult.andThen_some, InitResult.andThen_none] at hr)
      <;> [skip; skip;
          (subst hr; cases X <;> simp [State.flag] at hfail <;> subst hfail
             <;> simp [State.flag, State.handle, InitEnv.create, Slot.lt_def, Slot.le_def,
               Slot.idx, Slot.forall_iff, *])])
    <;> (((by_cases h4 : bf = "" <;> [skip; cases cb])
      <;> simp [initBlock, h4, InitResult.andThen_some, InitResult.andThen_none] at hr)
      <;>
          (subst hr; cases X <;> simp [State.flag] at hfail <;> subst hfail
             <;> simp [State.flag, State.handle, InitEnv.create, Slot.lt_def, Slot.le_def,
               Slot.idx, Slot.forall_iff, *])))))

set_option maxHeartbeats 1000000 in
/-- The `os.Create` call of slot X is made and fails as soon as the outcomes say
so: X is enabled and its creation fails, every enabled slot before X is created,
and sampling starts if the CPU slot is enabled and before X. -/
theorem Init_create_failure_of_outcomes (env : InitEnv) (s : State) (X : Slot) (e : Error)
    (hX : s.flag X ≠ "") (hcreate : env.create X = .error e)
    (hbefore : ∀ Y, Y < X → s.flag Y ≠ "" → ∃ f, env.create Y = .ok f)
    (hstart : Slot.cpu < X → s.CPUProfileFlag ≠ "" → env.startCPU = none) :
    (⟨X, .create (s.flag X) (.error e)⟩ : Event) ∈ (Init env s).events := by
  generalize hr : Init env s = r
  rcases s with ⟨cf, ch, hf, hh, tf, th, bf, bh⟩
  rcases env with ⟨cc, sc, clc, chp, ct, cb⟩
  unfold Init at hr
  cases X <;> simp [State.flag, InitEnv.create, Slot.lt_def, Slot.idx, Slot.forall_iff]
    at hX hcreate hbefore hstart
  all_goals
    ((((by_cases h1 : cf = "" <;> [skip; (cases cc <;> [cases sc; skip])])
        <;> simp [initCPU, h1, InitResult.andThen_some, InitResult.andThen_none] at hr)
        <;> [skip; skip;
            (subst hr; simp_all [State.flag]);
            (subst hr; simp_all [State.flag])])
      <;> ((((by_cases h2 : hf = "" <;> [skip; cases chp])
        <;> simp [initHeap, h2, InitResult.andThen_some, InitResult.andThen_none] at hr)
        <;> [skip; skip;
            (subst hr; simp_all [State.flag])])
      <;> ((((by_cases h3 : tf = "" <;> [skip; cases ct])
        <;> simp [initThread, h3, InitResult.andThen_some, InitResult.andThen_none] at hr)
        <;> [skip; skip;
            (subst hr; simp_all [State.flag])])
      <;> (((by_cases h4 : bf = "" <;> [skip; cases cb])
        <;> simp [initBlock, h4, InitResult.andThen_some, InitResult.andThen_none] at hr)
        <;>
            (subst hr; simp_all [State.flag])))))

set_option maxHeartbeats 1000000 in
/-- When no block before the block of slot X returns, the block of X runs as if
on its own: same resulting handle of X, same calls. -/
theorem Init_slot_of_reached (env : InitEnv) (s : State) (X : Slot)
    (hreach : ∀ Y, Y < X → s.flag Y ≠ "" →
      (∃ f, env.create Y = .ok f) ∧ (Y = .cpu → env.startCPU = none)) :
    (Init env s).state.handle X = (initSlot env s X).state.handle X
    ∧ (Init env s).events.filter (fun ev => ev.slot = X) = (initSlot env s X).events := by
  generalize hr : Init env s = r
  rcases s with ⟨cf, ch, hf, hh, tf, th, bf, bh⟩
  rcases env with ⟨cc, sc, clc, chp, ct, cb⟩
  unfold Init at hr
  cases X <;> simp [Slot.forall_iff, Slot.lt_def, Slot.idx, State.flag, InitEnv.create]
    at hreach
  all_goals
    ((((by_cases h1 : cf = "" <;> [skip; (cases cc <;> [cases sc; skip])])
        <;> simp [initCPU, h1, InitResult.andThen_some, InitResult.andThen_none] at hr)
        <;> [skip; skip;
            (subst hr
             simp_all [initSlot, initCPU, initHeap, initThread, initBlock, State.handle,
               List.filter_cons]);
            (subst hr
             simp_all [initSlot, initCPU, initHeap, initThread, initBlock, State.handle,
               List.filter_cons])])
      <;> ((((by_cases h2 : hf = "" <;> [skip; cases chp])
        <;> simp [initHeap, h2, InitResult.andThen_some, InitResult.andThen_none] at hr)
        <;> [skip; skip;
            (subst hr
             simp_all [initSlot, initCPU, initHeap, initThread, initBlock, State.handle,
               List.filter_cons])])
      <;> ((((by_cases h3 : tf = "" <;> [skip; cases ct])
        <;> simp [initThread, h3, InitResult.andThen_some, InitResult.andThen_none] at hr)
        <;> [skip; skip;
            (subst hr
             simp_all [initSlot, initCPU, initHeap, initThread, initBlock, State.handle,
               List.filter_cons])])
      <;> (((by_cases h4 : bf = "" <;> [skip; cases cb])
        <;> simp [initBlock, h4, InitResult.andThen_some, InitResult.andThen_none] at hr)
        <;>
            (subst hr
             simp_all [initSlot, initCPU, initHeap, initThread, initBlock, State.handle,
               List.filter_cons])))))

set_option maxHeartbeats 1000000 in
/-- `Init` returns nil exactly when the outcomes let every block pass. -/
theorem Init_err_none_iff (env : InitEnv) (s : State) :
    (Init env s).err = none ↔
      (∀ X, s.flag X ≠ "" → ∃ f, env.create X = .ok f)
      ∧ (s.CPUProfileFlag ≠ "" → env.startCPU = none) := by
  generalize hr : Init env s = r
  rcases s with ⟨cf, ch, hf, hh, tf, th, bf, bh⟩
  rcases env with ⟨cc, sc, clc, chp, ct, cb⟩
  unfold Init at hr
  ((((by_cases h1 : cf = "" <;> [skip; (cases cc <;> [cases sc; skip])])
      <;> simp [initCPU, h1, InitResult.andThen_some, InitResult.andThen_none] at hr)
      <;> [skip; skip;
          (subst hr; simp [State.flag, InitEnv.create, Slot.forall_iff, *]);
          (subst hr; simp [State.flag, InitEnv.create, Slot.forall_iff, *])])
    <;> ((((by_cases h2 : hf = "" <;> [skip; cases chp])
      <;> simp [initHeap, h2, InitResult.andThen_some, InitResult.andThen_none] at hr)
      <;> [skip; skip;
          (subst hr; simp [State.flag, InitEnv.create, Slot.forall_iff, *])])
    <;> ((((by_cases h3 : tf = "" <;> [skip; cases ct])
      <;> simp [initThread, h3, InitResult.andThen_some, InitResult.andThen_none] at hr)
      <;> [skip; skip;
          (subst hr; simp [State.flag, InitEnv.create, Slot.forall_iff, *])])
    <;> (((by_cases h4 : bf = "" <;> [skip; cases cb])
      <;> simp [initBlock, h4, InitResult.andThen_some, InitResult.andThen_none] at hr)
      <;>
          (subst hr; simp [State.flag, InitEnv.create, Slot.forall_iff, *])))))

set_option maxHeartbeats 1000000 in
/-- The `os.Create` calls of `Init` are made in the order of the slots, at most
one per slot, and sampling is started only in the CPU block, on the file created
for the CPU slot. -/
theorem Init_call_order (env : InitEnv) (s : State) :
    (((Init env s).events.filter (fun ev => ev.act.isCreate)).map Event.slot).Pairwise
        (fun a b => a < b)
    ∧ (∀ X f r, (⟨X, .startCPUProfile f r⟩ : Event) ∈ (Init env s).events →
        X = .cpu ∧ env.createCPU = .ok f) := by
  generalize hr : Init env s = r
  rcases s with ⟨cf, ch, hf, hh, tf, th, bf, bh⟩
  rcases env with ⟨cc, sc, clc, chp, ct, cb⟩
  unfold Init at hr
  ((((by_cases h1 : cf = "" <;> [skip; (cases cc <;> [cases sc; skip])])
      <;> simp [initCPU, h1, InitResult.andThen_some, InitResult.andThen_none] at hr)
      <;> [skip; skip;
          (subst hr
           refine ⟨by simp only [List.filter, List.map, Action.isCreate]; decide, ?_⟩
           simp <;> (intros; subst_vars; simp));
          (subst hr
           refine ⟨by simp only [List.filter, List.map, Action.isCreate]; decide, ?_⟩
           simp <;> (intros; subst_vars; simp))])
    <;> ((((by_cases h2 : hf = "" <;> [skip; cases chp])
      <;> simp [initHeap, h2, InitResult.andThen_some, InitResult.andThen_none] at hr)
      <;> [skip; skip;
          (subst hr
           refine ⟨by simp only [List.filter, List.map, Action.isCreate]; decide, ?_⟩
           simp <;> (intros; subst_vars; simp))])
    <;> ((((by_cases h3 : tf = "" <;> [skip; cases ct])
      <;> simp [initThread, h3, InitResult.andThen_some, InitResult.andThen_none] at hr)
      <;> [skip; skip;
          (subst hr
           refine ⟨by simp only [List.filter, List.map, Action.isCreate]; decide, ?_⟩
           simp <;> (intros; subst_vars; simp))])
    <;> (((by_cases h4 : bf = "" <;> [skip; cases cb])
      <;> simp [initBlock, h4, InitResult.andThen_some, InitResult.andThen_none] at hr)
      <;>
          (subst hr
           refine ⟨by simp only [List.filter, List.map, Action.isCreate]; decide, ?_⟩
           simp <;> (intros; subst_vars; simp))))))

/-- The block of an enabled slot whose calls succeed stores the created file. -/
theorem initSlot_ok (env : InitEnv) (s : State) (X : Slot) (f : File)
    (hX : s.flag X ≠ "") (hcreate : env.create X = .ok f)
    (hstart : X = .cpu → env.startCPU = none) :
    (initSlot env s X).state.handle X = some f
    ∧ (⟨X, .create (s.flag X) (.ok f)⟩ : Event) ∈ (initSlot env s X).events
    ∧ (X = .cpu → (⟨.cpu, .startCPUProfile f none⟩ : Event) ∈ (initSlot env s X).events) := by
  rcases s with ⟨cf, ch, hf, hh, tf, th, bf, bh⟩
  rcases env with ⟨cc, sc, clc, chp, ct, cb⟩
  cases X <;> simp only [State.flag, InitEnv.create] at hX hcreate <;> subst hcreate
  · have hsc : sc = none := hstart rfl
    subst hsc
    simp [initSlot, initCPU, hX, State.handle, State.flag]
  · simp [initSlot, initHeap, hX, State.handle, State.flag]
  · simp [initSlot, initThread, hX, State.handle, State.flag]
  · simp [initSlot, initBlock, hX, State.handle, State.flag]

/-- The block of a disabled slot does nothing. -/
theorem initSlot_disabled (env : InitEnv) (s : State) (X : Slot) (hX : s.flag X = "") :
    initSlot env s X = ⟨none, s, []⟩ := by
  cases X <;> simp only [State.flag] at hX
    <;> simp [initSlot, initCPU, initHeap, initThread, initBlock, hX]

set_option maxHeartbeats 1000000 in
/-- The files closed by `Init` and a following `Close`, from a state without
open file, are the files `Init` created, in the same order. -/
theorem Init_Close_closed_eq (env : InitEnv) (cenv : CloseEnv) (s : State)
    (hnil : ∀ X, s.handle X = none) :
    closedFiles ((Init env s).events ++ (Close cenv (Init env s).state).events)
        = createdFiles (Init env s).events
    ∧ (∀ f, f ∈ closedFiles (Init env s).events
        ↔ ∃ e, (⟨.cpu, .startCPUProfile f (some e)⟩ : Event) ∈ (Init env s).events)
    ∧ ((⟨.cpu, .stopCPUProfile⟩ : Event) ∈ (Close cenv (Init env s).state).events
        ↔ ∃ f, (⟨.cpu, .startCPUProfile f none⟩ : Event) ∈ (Init env s).events) := by
  generalize hr : Init env s = r
  rcases s with ⟨cf, ch, hf, hh, tf, th, bf, bh⟩
  rcases env with ⟨cc, sc, clc, chp, ct, cb⟩
  simp only [Slot.forall_iff, State.handle] at hnil
  obtain ⟨rfl, rfl, rfl, rfl⟩ := hnil
  unfold Init at hr
  ((((by_cases h1 : cf = "" <;> [skip; (cases cc <;> [cases sc; skip])])
      <;> simp [initCPU, h1, InitResult.andThen_some, InitResult.andThen_none] at hr)
      <;> [skip; skip;
          (subst hr
           simp [Close, CloseResult.andThen, closeCPU, closeHeap, closeThread, closeBlock,
             closedFiles, createdFiles]);
          (subst hr
           simp [Close, CloseResult.andThen, closeCPU, closeHeap, closeThread, closeBlock,
             closedFiles, createdFiles])])
    <;> ((((by_cases h2 : hf = "" <;> [skip; cases chp])
      <;> simp [initHeap, h2, InitResult.andThen_some, InitResult.andThen_none] at hr)
      <;> [skip; skip;
          (subst hr
           simp [Close, CloseResult.andThen, closeCPU, closeHeap, closeThread, closeBlock,
             closedFiles, createdFiles])])
    <;> ((((by_cases h3 : tf = "" <;> [skip; cases ct])
      <;> simp [initThread, h3, InitResult.andThen_some, InitResult.andThen_none] at hr)
      <;> [skip; skip;
          (subst hr
           simp [Close, CloseResult.andThen, closeCPU, closeHeap, closeThread, closeBlock,
             closedFiles, createdFiles])])
    <;> (((by_cases h4 : bf = "" <;> [skip; cases cb])
      <;> simp [initBlock, h4, InitResult.andThen_some, InitResult.andThen_none] at hr)
      <;>
          (subst hr
           simp [Close, CloseResult.andThen, closeCPU, closeHeap, closeThread, closeBlock,
             closedFiles, createdFiles])))))

/-! ## Logs -/

/-- The created files of a concatenation. -/
theorem createdFiles_append (l1 l2 : List Event) :
    createdFiles (l1 ++ l2) = createdFiles l1 ++ createdFiles l2 := by
  induction l1 with
  | nil => rfl
  | cons a l ih =>
    rcases a with ⟨X, act⟩
    cases act with
    | create p r => cases r <;> simp [createdFiles, ih]
    | _ => simp [createdFiles, ih]

/-- The closed files of a concatenation. -/
theorem closedFiles_append (l1 l2 : List Event) :
    closedFiles (l1 ++ l2) = closedFiles l1 ++ closedFiles l2 := by
  induction l1 with
  | nil => rfl
  | cons a l ih =>
    rcases a with ⟨X, act⟩
    cases act <;> simp [closedFiles, ih]

/-- A file returned by a logged `os.Create` is a created file of the log. -/
theorem mem_createdFiles (l : List Event) (X : Slot) (p : String) (f : File)
    (h : (⟨X, .create p (.ok f)⟩ : Event) ∈ l) : f ∈ createdFiles l := by
  induction l with
  | nil => cases h
  | cons a l ih =>
    rcases List.mem_cons.1 h with h1 | h1
    · subst h1
      simp [createdFiles]
    · rcases a with ⟨Y, act⟩
      cases act with
      | create q r => cases r <;> simp [createdFiles, ih h1]
      | _ => simp [createdFiles, ih h1]

/-- The log after one more step. -/
theorem exec_append_singleton (steps : List Step) (st : Step) :
    exec (steps ++ [st]) = step (exec steps) st := by
  simp [exec, List.foldl_append]

/-- `Close` creates no file and starts no sampling, and it closes only files
that the handles held. -/
theorem Close_log_facts (env : CloseEnv) (s : State) :
    createdFiles (Close env s).events = []
    ∧ (∀ g ∈ closedFiles (Close env s).events, ∃ X, s.handle X = some g)
    ∧ (∀ g r, (⟨.cpu, .startCPUProfile g r⟩ : Event) ∉ (Close env s).events) := by
  rcases s with ⟨cf, ch, hf, hh, tf, th, bf, bh⟩
  cases ch <;> cases hh <;> cases th <;> cases bh
    <;> simp [Close, CloseResult.andThen, closeCPU, closeHeap, closeThread, closeBlock,
      createdFiles, closedFiles, State.handle, Slot.exists_iff]

set_option maxHeartbeats 1000000 in
/-- What one run of `Init` does to the handles and to the log.  A handle that is
set afterwards is the old one or was stored by this run, which then created the
file for this slot (and started sampling on it, for the CPU slot) and closed no
file; every file this run closes was created by it; the file of a failed start of
sampling is closed. -/
theorem Init_log_facts (env : InitEnv) (s : State) :
    (∀ X f, (Init env s).state.handle X = some f →
        s.handle X = some f
        ∨ ((⟨X, .create (s.flag X) (.ok f)⟩ : Event) ∈ (Init env s).events
          ∧ (X = .cpu → (⟨.cpu, .startCPUProfile f none⟩ : Event) ∈ (Init env s).events)
          ∧ closedFiles (Init env s).events = []))
    ∧ (∀ g ∈ closedFiles (Init env s).events, g ∈ createdFiles (Init env s).events)
    ∧ (∀ g e, (⟨.cpu, .startCPUProfile g (some e)⟩ : Event) ∈ (Init env s).events →
        g ∈ closedFiles (Init env s).events) := by
  generalize hr : Init env s = r
  rcases s with ⟨cf, ch, hf, hh, tf, th, bf, bh⟩
  rcases env with ⟨cc, sc, clc, chp, ct, cb⟩
  unfold Init at hr
  ((((by_cases h1 : cf = "" <;> [skip; (cases cc <;> [cases sc; skip])])
      <;> simp [initCPU, h1, InitResult.andThen_some, InitResult.andThen_none] at hr)
      <;> [skip; skip;
          (subst hr; refine ⟨fun X => ?_, ?_, ?_⟩ <;> [cases X; skip; skip]
             <;> simp [closedFiles, createdFiles, State.handle, State.flag]);
          (subst hr; refine ⟨fun X => ?_, ?_, ?_⟩ <;> [cases X; skip; skip]
             <;> simp [closedFiles, createdFiles, State.handle, State.flag])])
    <;> ((((by_cases h2 : hf = "" <;> [skip; cases chp])
      <;> simp [initHeap, h2, InitResult.andThen_some, InitResult.andThen_none] at hr)
      <;> [skip; skip;
          (subst hr; refine ⟨fun X => ?_, ?_, ?_⟩ <;> [cases X; skip; skip]
             <;> simp [closedFiles, createdFiles, State.handle, State.flag])])
    <;> ((((by_cases h3 : tf = "" <;> [skip; cases ct])
      <;> simp [initThread, h3, InitResult.andThen_some, InitResult.andThen_none] at hr)
      <;> [skip; skip;
          (subst hr; refine ⟨fun X => ?_, ?_, ?_⟩ <;> [cases X; skip; skip]
             <;> simp [closedFiles, createdFiles, State.handle, State.flag])])
    <;> (((by_cases h4 : bf = "" <;> [skip; cases cb])
      <;> simp [initBlock, h4, InitResult.andThen_some, InitResult.andThen_none] at hr)
      <;>
          (subst hr; refine ⟨fun X => ?_, ?_, ?_⟩ <;> [cases X; skip; skip]
             <;> simp [closedFiles, createdFiles, State.handle, State.flag])))))

/-! ## Runs -/

/-- Invariants of the handles and of the log along every run in which
`os.Create` never returns the same file twice: a handle that is set holds a file
that was created and has not been closed; only created files are closed; the file
of a failed start of sampling has been closed. -/
theorem exec_invariant (steps : List Step) :
    (createdFiles (exec steps).2).Nodup →
    (∀ X f, (exec steps).1.handle X = some f →
        f ∈ createdFiles (exec steps).2 ∧ f ∉ closedFiles (exec steps).2)
    ∧ (∀ g ∈ closedFiles (exec steps).2, g ∈ createdFiles (exec steps).2)
    ∧ (∀ g e, (⟨.cpu, .startCPUProfile g (some e)⟩ : Event) ∈ (exec steps).2 →
        g ∈ closedFiles (exec steps).2) := by
  induction steps using List.reverseRecOn with
  | nil =>
    intro _
    refine ⟨fun X f h => ?_, fun g h => ?_, fun g e h => ?_⟩
    · cases X <;> cases h
    · cases h
    · cases h
  | append_singleton l st ih =>
    rw [exec_append_singleton]
    cases st with
    | setFlags c h t b =>
      intro hnd
      obtain ⟨I1, I2, I4⟩ := ih hnd
      exact ⟨fun X f hX => I1 X f (by cases X <;> exact hX), I2, I4⟩
    | init env =>
      simp only [step]
      rw [createdFiles_append, closedFiles_append]
      intro hnd
      obtain ⟨hnd1, _, hdisj⟩ := List.nodup_append.1 hnd
      obtain ⟨I1, I2, I4⟩ := ih hnd1
      obtain ⟨F1, F2, F3⟩ := Init_log_facts env (exec l).1
      refine ⟨fun X f hX => ?_, fun g hg => ?_, fun g e hg => ?_⟩
      · rcases F1 X f hX with hold | ⟨hc, _, hcl⟩
        · obtain ⟨h1, h2⟩ := I1 X f hold
          refine ⟨List.mem_append_left _ h1, ?_⟩
          rw [List.mem_append]
          rintro (h | h)
          · exact h2 h
          · exact hdisj h1 (F2 f h)
        · have hcr := mem_createdFiles _ _ _ _ hc
          refine ⟨List.mem_append_right _ hcr, ?_⟩
          rw [hcl, List.append_nil]
          intro h
          exact hdisj (I2 f h) hcr
      · rw [List.mem_append] at hg ⊢
        rcases hg with h | h
        · exact Or.inl (I2 g h)
        · exact Or.inr (F2 g h)
      · rw [List.mem_append] at hg ⊢
        rcases hg with h | h
        · exact Or.inl (I4 g e h)
        · exact Or.inr (F3 g e h)
    | close env =>
      simp only [step]
      rw [createdFiles_append, closedFiles_append]
      obtain ⟨G1, G2, G3⟩ := Close_log_facts env (exec l).1
      rw [G1, List.append_nil]
      intro hnd
      obtain ⟨I1, I2, I4⟩ := ih hnd
      refine ⟨fun X f hX => ?_, fun g hg => ?_, fun g e hg => ?_⟩
      · rw [Close_handle] at hX
        cases hX
      · rw [List.mem_append] at hg
        rcases hg with h | h
        · exact I2 g h
        · obtain ⟨X, hX⟩ := G2 g h
          exact (I1 X g hX).1
      · rw [List.mem_append] at hg
        rcases hg with h | h
        · exact List.mem_append_left _ (I4 g e h)
        · exact absurd h (G3 g _)

/-- A handle that is set was stored by a run of `Init` that created the file for
this slot (and started sampling on it, for the CPU slot), and `Close` was not
called since. -/
theorem exec_history (steps : List Step) :
    ∀ X f, (exec steps).1.handle X = some f →
      ∃ pre env post, steps = pre ++ Step.init env :: post
        ∧ (∀ c, Step.close c ∉ post)
        ∧ (⟨X, .create ((exec pre).1.flag X) (.ok f)⟩ : Event)
            ∈ (Init env (exec pre).1).events
        ∧ (X = .cpu →
            (⟨.cpu, .startCPUProfile f none⟩ : Event) ∈ (Init env (exec pre).1).events)
        ∧ (Init env (exec pre).1).state.handle X = some f := by
  induction steps using List.reverseRecOn with
  | nil =>
    intro X f h
    cases X <;> cases h
  | append_singleton l st ih =>
    intro X f hX
    rw [exec_append_singleton] at hX
    cases st with
    | setFlags c h t b =>
      obtain ⟨pre, env, post, h1, h2, h3⟩ := ih X f (by cases X <;> exact hX)
      refine ⟨pre, env, post ++ [.setFlags c h t b], by rw [h1]; simp, ?_, h3⟩
      intro c hc
      rw [List.mem_append] at hc
      rcases hc with hc | hc
      · exact h2 c hc
      · simp at hc
    | init env =>
      simp only [step] at hX
      rcases (Init_log_facts env (exec l).1).1 X f hX with hold | ⟨hc, hs, _⟩
      · obtain ⟨pre, env0, post, h1, h2, h3⟩ := ih X f hold
        refine ⟨pre, env0, post ++ [.init env], by rw [h1]; simp, ?_, h3⟩
        intro c hc
        rw [List.mem_append] at hc
        rcases hc with hc | hc
        · exact h2 c hc
        · simp at hc
      · exact ⟨l, env, [], rfl, fun c hm => (by cases hm), hc, hs, hX⟩
    | close env =>
      simp only [step] at hX
      rw [Close_handle] at hX
      cases hX

/-- A handle that is set holds a file that `os.Create` returned in this run. -/
theorem exec_created (steps : List Step) :
    ∀ X f, (exec steps).1.handle X = some f → f ∈ createdFiles (exec steps).2 := by
  induction steps using List.reverseRecOn with
  | nil =>
    intro X f h
    cases X <;> cases h
  | append_singleton l st ih =>
    intro X f hX
    rw [exec_append_singleton] at hX ⊢
    cases st with
    | setFlags c h t b => exact ih X f (by cases X <;> exact hX)
    | init env =>
      simp only [step] at hX ⊢
      rw [createdFiles_append]
      rcases (Init_log_facts env (exec l).1).1 X f hX with hold | ⟨hc, _, _⟩
      · exact List.mem_append_left _ (ih X f hold)
      · exact List.mem_append_right _ (mem_createdFiles _ _ _ _ hc)
    | close env =>
      simp only [step] at hX
      rw [Close_handle] at hX
      cases hX

/-! ## Claims on Init -/

/-- C1: `Init` is fail-fast with partial success.  For all flags and outcomes,
the `os.Create` call of a slot X is made and fails with e exactly when X is
enabled, its creation fails with e, every enabled slot before X (in the order CPU,
Heap, Thread, Block) is created, and sampling starts if the CPU slot is enabled
and before X.  Then `Init` returns e; every enabled slot before X holds the file
just created for it; no `os.Create` is attempted for a slot after X; the handles
of X and of the slots after X are as before.  When X is the CPU slot,
`pprof.StartCPUProfile` is not called, and if all handles were nil before, all
are nil afterwards. -/
theorem Init_fail_fast (env : InitEnv) (s : State) (X : Slot) (e : Error) :
    ((⟨X, .create (s.flag X) (.error e)⟩ : Event) ∈ (Init env s).events
      ↔ (s.flag X ≠ "" ∧ env.create X = .error e
          ∧ (∀ Y, Y < X → s.flag Y ≠ "" → ∃ f, env.create Y = .ok f)
          ∧ (Slot.cpu < X → s.CPUProfileFlag ≠ "" → env.startCPU = none)))
    ∧ ((⟨X, .create (s.flag X) (.error e)⟩ : Event) ∈ (Init env s).events →
        (Init env s).err = some e
        ∧ (∀ Y, Y < X → s.flag Y ≠ "" →
            ∃ f, env.create Y = .ok f ∧ (Init env s).state.handle Y = some f
              ∧ (⟨Y, .create (s.flag Y) (.ok f)⟩ : Event) ∈ (Init env s).events)
        ∧ (∀ Z, X < Z → ∀ p r, (⟨Z, .create p r⟩ : Event) ∉ (Init env s).events)
        ∧ (∀ Z, X ≤ Z → (Init env s).state.handle Z = s.handle Z)
        ∧ (X = .cpu →
            (∀ Y f r, (⟨Y, .startCPUProfile f r⟩ : Event) ∉ (Init env s).events)
            ∧ ((∀ Z, s.handle Z = none) → ∀ Z, (Init env s).state.handle Z = none))) :=
  ⟨⟨fun h => (Init_create_failure env s X e h).1,
    fun h => Init_create_failure_of_outcomes env s X e h.1 h.2.1 h.2.2.1 h.2.2.2⟩,
   fun h => (Init_create_failure env s X e h).2⟩

/-- Witness of C1: CPU and heap are enabled, the CPU file 1 is created and
sampling starts, the heap file cannot be created. -/
theorem Init_fail_fast_witness :
    (⟨.heap, .create "heap.out" (.error ⟨"permission denied"⟩)⟩ : Event)
        ∈ (Init sampleEnvHeapFails sampleState).events
    ∧ (Init sampleEnvHeapFails sampleState).err = some ⟨"permission denied"⟩
    ∧ (Init sampleEnvHeapFails sampleState).state.handle .cpu = some ⟨1⟩
    ∧ (Init sampleEnvHeapFails sampleState).state.handle .heap = none :=
  have h := Init_fail_fast sampleEnvHeapFails sampleState .heap ⟨"permission denied"⟩
  have hmem := h.1.2 ⟨by decide, rfl,
    fun Y hY _ => by cases Y <;> first | exact ⟨_, rfl⟩ | exact absurd hY (by decide),
    fun _ _ => rfl⟩
  ⟨hmem, (h.2 hmem).1, by
    obtain ⟨f, hf, hh, _⟩ := (h.2 hmem).2.1 .cpu (by decide) (by decide)
    cases hf
    exact hh, (h.2 hmem).2.2.2.1 .heap (by decide)⟩

/-- C2: when the CPU flag is set and its file is created but
`pprof.StartCPUProfile` fails, `Init` returns the profiler error, its calls are
exactly create, start, close of the file just created (nothing is done for the
heap, thread and block slots) and every package variable keeps its value, so
the CPU handle is not set. -/
theorem Init_start_failure (env : InitEnv) (s : State) (f : File) (err : Error)
    (hflag : s.CPUProfileFlag ≠ "") (hcreate : env.createCPU = .ok f)
    (hstart : env.startCPU = some err) :
    (Init env s).err = some err
    ∧ (Init env s).events =
        [⟨.cpu, .create s.CPUProfileFlag (.ok f)⟩,
         ⟨.cpu, .startCPUProfile f (some err)⟩,
         ⟨.cpu, .close f env.closeCPU⟩]
    ∧ (∀ ev ∈ (Init env s).events, ev.slot = .cpu)
    ∧ (Init env s).state = s
    ∧ (∀ X, (Init env s).state.handle X = s.handle X) := by
  simp [Init, InitResult.andThen, initCPU, hflag, hcreate, hstart]

/-- Witness of C2: the CPU file 1 is created and the profiler refuses to start. -/
theorem Init_start_failure_witness :
    (Init sampleEnvStartFails sampleState).err = some ⟨"cpu profiling already in use"⟩
    ∧ (Init sampleEnvStartFails sampleState).events =
        [⟨.cpu, .create "cpu.out" (.ok ⟨1⟩)⟩,
         ⟨.cpu, .startCPUProfile ⟨1⟩ (some ⟨"cpu profiling already in use"⟩)⟩,
         ⟨.cpu, .close ⟨1⟩ none⟩]
    ∧ (Init sampleEnvStartFails sampleState).state = sampleState :=
  have h := Init_start_failure sampleEnvStartFails sampleState ⟨1⟩
    ⟨"cpu profiling already in use"⟩ (by decide) rfl rfl
  ⟨h.1, h.2.1, h.2.2.2.1⟩

/-- C3: `Init` returns nil exactly when every enabled slot has its file created
and, if the CPU slot is enabled, sampling starts.  In that case every enabled
slot holds the file just created at the path of its flag (on which sampling was
started, for the CPU slot), and for every disabled slot no `os.Create` is called
and the handle is as before.  In every run the `os.Create` calls are made in the
order CPU, Heap, Thread, Block, at most one per slot, and `pprof.StartCPUProfile`
is called only in the CPU block, on the file created for the CPU slot. -/
theorem Init_success (env : InitEnv) (s : State) :
    ((Init env s).err = none ↔
        (∀ X, s.flag X ≠ "" → ∃ f, env.create X = .ok f)
        ∧ (s.CPUProfileFlag ≠ "" → env.startCPU = none))
    ∧ ((Init env s).err = none →
        (∀ X, s.flag X ≠ "" → ∃ f, env.create X = .ok f
            ∧ (Init env s).state.handle X = some f
            ∧ (⟨X, .create (s.flag X) (.ok f)⟩ : Event) ∈ (Init env s).events
            ∧ (X = .cpu → (⟨.cpu, .startCPUProfile f none⟩ : Event) ∈ (Init env s).events))
        ∧ (∀ X, s.flag X = "" → (Init env s).state.handle X = s.handle X
            ∧ ∀ p r, (⟨X, .create p r⟩ : Event) ∉ (Init env s).events))
    ∧ (((Init env s).events.filter (fun ev => ev.act.isCreate)).map Event.slot).Pairwise
        (fun a b => a < b)
    ∧ (∀ X f r, (⟨X, .startCPUProfile f r⟩ : Event) ∈ (Init env s).events →
        X = .cpu ∧ env.createCPU = .ok f) := by
  have hiff := Init_err_none_iff env s
  refine ⟨hiff, fun herr => ?_, Init_call_order env s⟩
  obtain ⟨hall, hstart⟩ := hiff.1 herr
  have hreach : ∀ X Y, Y < X → s.flag Y ≠ "" →
      (∃ f, env.create Y = .ok f) ∧ (Y = .cpu → env.startCPU = none) := by
    intro X Y _ hY
    refine ⟨hall Y hY, fun hcpu => ?_⟩
    subst hcpu
    exact hstart hY
  refine ⟨fun X hX => ?_, fun X hX => ?_⟩
  · obtain ⟨f, hf⟩ := hall X hX
    obtain ⟨a, b⟩ := Init_slot_of_reached env s X (hreach X)
    obtain ⟨c1, c2, c3⟩ := initSlot_ok env s X f hX hf (fun hcpu => by
      subst hcpu
      exact hstart hX)
    refine ⟨f, hf, by rw [a, c1], ?_, fun hcpu => ?_⟩
    · rw [← b] at c2
      exact List.mem_of_mem_filter c2
    · have c4 := c3 hcpu
      rw [← b] at c4
      exact List.mem_of_mem_filter c4
  · obtain ⟨a, b⟩ := Init_slot_of_reached env s X (hreach X)
    rw [initSlot_disabled env s X hX] at a b
    refine ⟨a, fun p r hmem => ?_⟩
    have hin : (⟨X, .create p r⟩ : Event)
        ∈ (Init env s).events.filter (fun ev => ev.slot = X) :=
      List.mem_filter.2 ⟨hmem, by simp⟩
    rw [b] at hin
    cases hin

/-- Witness of C3: CPU and heap are enabled and every call succeeds. -/
theorem Init_success_witness :
    (Init sampleEnvOk sampleState).err = none
    ∧ (Init sampleEnvOk sampleState).state.handle .cpu = some ⟨1⟩
    ∧ (Init sampleEnvOk sampleState).state.handle .heap = some ⟨2⟩
    ∧ (Init sampleEnvOk sampleState).state.handle .thread = none :=
  have h := Init_success sampleEnvOk sampleState
  have hok : (Init sampleEnvOk sampleState).err = none :=
    h.1.2 ⟨fun X _ => by cases X <;> exact ⟨_, rfl⟩, fun _ => rfl⟩
  ⟨hok, by
    obtain ⟨f, hf, hh, _⟩ := (h.2.1 hok).1 .cpu (by decide)
    cases hf
    exact hh, by
    obtain ⟨f, hf, hh, _⟩ := (h.2.1 hok).1 .heap (by decide)
    cases hf
    exact hh, ((h.2.1 hok).2 .thread rfl).1⟩

/-! ## Claims on Close -/

/-- C4: from every state, all four handles are nil after `Close`; so a second
`Close` right after the first makes no call at all (no profiler action, no write,
no file close) and leaves every package variable as it is, whatever the outside
world would answer. -/
theorem Close_idempotent (env env2 : CloseEnv) (s : State) :
    (∀ X, (Close env s).state.handle X = none)
    ∧ (Close env2 (Close env s).state).events = []
    ∧ (Close env2 (Close env s).state).state = (Close env s).state := by
  rcases s with ⟨cf, ch, hf, hh, tf, th, bf, bh⟩
  cases ch <;> cases hh <;> cases th <;> cases bh
    <;> exact ⟨fun X => by cases X <;> rfl, rfl, rfl⟩

/-- C5: `Close` is best-effort per slot.  For every state and every outcome of
every write and close, the calls of `Close` are exactly the calls that the
specification lists for the CPU slot, then those for the heap slot, then thread,
then block, where a slot with a nil handle contributes no call and a slot with a
non-nil handle contributes all of its calls; afterwards every handle is nil and
the flags are as before. -/
theorem Close_best_effort (env : CloseEnv) (s : State) :
    (Close env s).events
        = closeSlotSpec env s .cpu ++ closeSlotSpec env s .heap
          ++ closeSlotSpec env s .thread ++ closeSlotSpec env s .block
    ∧ (∀ X, s.handle X = none → ∀ ev ∈ (Close env s).events, ev.slot ≠ X)
    ∧ (∀ X f, s.handle X = some f →
        ((Close env s).events.filter (fun ev => ev.slot = X)).map Event.act
          = closeActionsSpec env f X)
    ∧ (∀ X, (Close env s).state.handle X = none)
    ∧ (∀ X, (Close env s).state.flag X = s.flag X) := by
  refine ⟨Close_events_eq env s, ?_, ?_, Close_handle env s, Close_flag env s⟩
  · rcases s with ⟨cf, ch, hf, hh, tf, th, bf, bh⟩
    cases ch <;> cases hh <;> cases th <;> cases bh
      <;> simp [Close, CloseResult.andThen, closeCPU, closeHeap, closeThread, closeBlock,
        State.handle, Slot.forall_iff]
  · rcases s with ⟨cf, ch, hf, hh, tf, th, bf, bh⟩
    cases ch <;> cases hh <;> cases th <;> cases bh
      <;> simp [Close, CloseResult.andThen, closeCPU, closeHeap, closeThread, closeBlock,
        closeActionsSpec, State.handle, Slot.forall_iff, List.filter_cons]

/-- C6: in every run of `Close` a heap snapshot is written exactly when the heap
handle is non-nil; the call right before every heap write is the forced garbage
collection of the heap block, and the write is the one of the heap block, to the
heap file; no garbage collection is forced when the heap handle is nil. -/
theorem Close_heap_gc (env : CloseEnv) (s : State) :
    ((∃ X f r, (⟨X, .writeTo "heap" f r⟩ : Event) ∈ (Close env s).events)
        ↔ s.heapProfileFile ≠ none)
    ∧ (∀ l1 l2 X f r, (Close env s).events = l1 ++ ⟨X, .writeTo "heap" f r⟩ :: l2 →
        l1.getLast? = some ⟨.heap, .gc⟩ ∧ X = .heap ∧ s.heapProfileFile = some f
          ∧ r = env.writeHeap)
    ∧ (s.heapProfileFile = none → ∀ X, (⟨X, .gc⟩ : Event) ∉ (Close env s).events) := by
  have hev := Close_events_eq env s
  have hc := closeSlotSpec_not_heapWrite env s .cpu (by decide)
  have ht := closeSlotSpec_not_heapWrite env s .thread (by decide)
  have hb := closeSlotSpec_not_heapWrite env s .block (by decide)
  have hw : ∀ X f r, (⟨X, .writeTo "heap" f r⟩ : Event).isHeapWrite = true :=
    fun X f r => by simp [Event.isHeapWrite]
  cases hhp : s.heapProfileFile with
  | none =>
    have hh : closeSlotSpec env s .heap = [] := by simp [closeSlotSpec, State.handle, hhp]
    rw [hh, List.append_nil] at hev
    have hno : ∀ ev ∈ (Close env s).events, ¬ ev.isHeapWrite = true := by
      intro ev hmem
      rw [hev, List.mem_append, List.mem_append] at hmem
      rcases hmem with (h | h) | h
      · exact hc ev h
      · exact ht ev h
      · exact hb ev h
    refine ⟨?_, ?_, ?_⟩
    · simp only [ne_eq, not_true_eq_false, iff_false]
      rintro ⟨X, f, r, hmem⟩
      exact hno _ hmem (hw X f r)
    · intro l1 l2 X f r h
      exact absurd (hw X f r) (hno _ (by rw [h]; simp))
    · intro _ X hmem
      rw [hev, List.mem_append, List.mem_append] at hmem
      rcases hmem with (h | h) | h
      · exact closeSlotSpec_not_gc env s .cpu X (by decide) h
      · exact closeSlotSpec_not_gc env s .thread X (by decide) h
      · exact closeSlotSpec_not_gc env s .block X (by decide) h
  | some g =>
    have hh : closeSlotSpec env s .heap
        = [⟨.heap, .gc⟩, ⟨.heap, .writeTo "heap" g env.writeHeap⟩,
           ⟨.heap, .close g env.closeHeap⟩] := by
      simp [closeSlotSpec, State.handle, hhp, closeActionsSpec]
    have hev2 : (Close env s).events
        = (closeSlotSpec env s .cpu ++ [⟨.heap, .gc⟩])
          ++ ⟨.heap, .writeTo "heap" g env.writeHeap⟩
            :: (⟨.heap, .close g env.closeHeap⟩
              :: (closeSlotSpec env s .thread ++ closeSlotSpec env s .block)) := by
      rw [hev, hh]
      simp
    refine ⟨?_, ?_, ?_⟩
    · simp only [ne_eq, not_false_eq_true, iff_true, reduceCtorEq]
      exact ⟨.heap, g, env.writeHeap, by rw [hev2]; simp⟩
    · intro l1 l2 X f r h
      rw [hev2] at h
      obtain ⟨h1, h2, _⟩ := append_cons_unique (fun ev => ev.isHeapWrite = true) _ l1 _ _ _ l2
        (by
          intro x hx
          rw [List.mem_append] at hx
          rcases hx with hx | hx
          · exact hc x hx
          · simp only [List.mem_singleton] at hx
            subst hx
            simp [Event.isHeapWrite])
        (by
          intro x hx
          rw [List.mem_cons, List.mem_append] at hx
          rcases hx with hx | hx | hx
          · subst hx
            simp [Event.isHeapWrite]
          · exact ht x hx
          · exact hb x hx)
        (hw X f r) h
      subst h1
      simp only [Event.mk.injEq, Action.writeTo.injEq, true_and] at h2
      obtain ⟨hX, hf, hr⟩ := h2
      subst hX hf hr
      simp
    · intro h
      cases h

/-! ## Claims on Init followed by Close -/

/-- C7: when all four flags are empty and all handles are nil, `Init` makes no
call (no file is created, sampling is not started), returns nil and changes no
package variable, and a following `Close` makes no call either and leaves the
state as it is. -/
theorem Init_Close_disabled (env : InitEnv) (cenv : CloseEnv) (s : State)
    (hflags : ∀ X, s.flag X = "") (hnil : ∀ X, s.handle X = none) :
    Init env s = ⟨none, s, []⟩ ∧ Close cenv (Init env s).state = ⟨s, []⟩ := by
  rcases s with ⟨cf, ch, hf, hh, tf, th, bf, bh⟩
  simp only [Slot.forall_iff, State.flag, State.handle] at hflags hnil
  obtain ⟨rfl, rfl, rfl, rfl⟩ := hflags
  obtain ⟨rfl, rfl, rfl, rfl⟩ := hnil
  exact ⟨rfl, rfl⟩

/-- Witness of C7: the state of a program that registered no flag. -/
theorem Init_Close_disabled_witness :
    Init sampleEnvOk State.initial = ⟨none, State.initial, []⟩
    ∧ Close sampleCloseEnvOk (Init sampleEnvOk State.initial).state
        = ⟨State.initial, []⟩ :=
  Init_Close_disabled sampleEnvOk sampleCloseEnvOk State.initial
    (fun X => by cases X <;> rfl) (fun X => by cases X <;> rfl)

/-! ## Independence of the slots -/

/-- Counterexample to C8 as stated: two runs of `Init` from the same state
(CPU and heap enabled, no open file) that agree on the heap flag and on the
outcome of the creation of the heap file (file 2 is returned), and differ only in
the outcome of the creation of the CPU file.  Where the CPU file cannot be
created the heap slot is never treated: its handle stays nil and no call is made
for it, whereas in the other run the heap file is created and stored. -/
theorem slot_independence_counterexample :
    sampleEnvCPUFails.create .heap = sampleEnvOk.create .heap
    ∧ (Init sampleEnvCPUFails sampleState).state.handle .heap = none
    ∧ (Init sampleEnvOk sampleState).state.handle .heap = some ⟨2⟩
    ∧ (Init sampleEnvCPUFails sampleState).events.filter (fun ev => ev.slot = .heap) = []
    ∧ (Init sampleEnvOk sampleState).events.filter (fun ev => ev.slot = .heap)
        = [⟨.heap, .create "heap.out" (.ok ⟨2⟩)⟩]
    ∧ ¬ (∀ (env1 env2 : InitEnv) (s1 s2 : State) (X : Slot),
        s1.flag X = s2.flag X → s1.handle X = s2.handle X →
        env1.create X = env2.create X →
        (X = .cpu → env1.startCPU = env2.startCPU ∧ env1.closeCPU = env2.closeCPU) →
        (Init env1 s1).state.handle X = (Init env2 s2).state.handle X
        ∧ (Init env1 s1).events.filter (fun ev => ev.slot = X)
            = (Init env2 s2).events.filter (fun ev => ev.slot = X)) := by
  refine ⟨rfl, rfl, rfl, rfl, rfl, fun h => ?_⟩
  have h2 := (h sampleEnvCPUFails sampleEnvOk sampleState sampleState .heap rfl rfl rfl
    (fun hX => by cases hX)).1
  exact absurd h2 (by decide)

/-- C8, amended: the lifecycle of a slot does not depend on the other slots
unless `Init` returns before reaching it.  For two runs of `Init`, and of `Init`
followed by `Close`, that agree on the flag and the initial handle of a slot X
and on the answers to the calls made for X, and in neither of which a slot before
X fails (no enabled earlier slot fails to be created, and sampling starts if the
CPU slot is enabled and earlier), the handle of X after `Init` and after `Close`
and the calls made for X by `Init` and by `Close` are the same, whatever the
flags, handles and outcomes of the other three slots are. -/
theorem slot_independence_when_reached (env1 env2 : InitEnv) (cenv1 cenv2 : CloseEnv)
    (s1 s2 : State) (X : Slot)
    (hflag : s1.flag X = s2.flag X) (hhandle : s1.handle X = s2.handle X)
    (hcreate : env1.create X = env2.create X)
    (hcpu : X = .cpu → env1.startCPU = env2.startCPU ∧ env1.closeCPU = env2.closeCPU)
    (hclose : ∀ f, closeActionsSpec cenv1 f X = closeActionsSpec cenv2 f X)
    (hreach1 : ∀ Y, Y < X → s1.flag Y ≠ "" →
      (∃ f, env1.create Y = .ok f) ∧ (Y = .cpu → env1.startCPU = none))
    (hreach2 : ∀ Y, Y < X → s2.flag Y ≠ "" →
      (∃ f, env2.create Y = .ok f) ∧ (Y = .cpu → env2.startCPU = none)) :
    (Init env1 s1).state.handle X = (Init env2 s2).state.handle X
    ∧ (Init env1 s1).events.filter (fun ev => ev.slot = X)
        = (Init env2 s2).events.filter (fun ev => ev.slot = X)
    ∧ (Close cenv1 (Init env1 s1).state).state.handle X
        = (Close cenv2 (Init env2 s2).state).state.handle X
    ∧ (Close cenv1 (Init env1 s1).state).events.filter (fun ev => ev.slot = X)
        = (Close cenv2 (Init env2 s2).state).events.filter (fun ev => ev.slot = X) := by
  obtain ⟨a1, b1⟩ := Init_slot_of_reached env1 s1 X hreach1
  obtain ⟨a2, b2⟩ := Init_slot_of_reached env2 s2 X hreach2
  obtain ⟨_, c2, c3⟩ := initSlot_congr env1 env2 s1 s2 X hflag hhandle hcreate hcpu
  have hh : (Init env1 s1).state.handle X = (Init env2 s2).state.handle X := by
    rw [a1, a2, c2]
  refine ⟨hh, by rw [b1, b2, c3], by rw [Close_handle, Close_handle], ?_⟩
  rw [Close_slot_events, Close_slot_events]
  unfold closeSlotSpec
  rw [hh]
  cases (Init env2 s2).state.handle X with
  | none => rfl
  | some f => simp only [hclose f]

/-- Witness of C8, amended: the block slot in two runs that differ in the
thread slot (absent in one run, enabled in the other) and in the answers `Close`
gets for the other slots. -/
theorem slot_independence_when_reached_witness :
    (Init sampleEnvOk ⟨"", none, "h", none, "", none, "b", none⟩).state.handle .block
      = (Init sampleEnvOk ⟨"c", none, "", none, "t", none, "b", none⟩).state.handle .block
    ∧ (Init sampleEnvOk ⟨"", none, "h", none, "", none, "b", none⟩).events.filter
          (fun ev => ev.slot = .block)
        = (Init sampleEnvOk ⟨"c", none, "", none, "t", none, "b", none⟩).events.filter
          (fun ev => ev.slot = .block) :=
  have h := slot_independence_when_reached sampleEnvOk sampleEnvOk sampleCloseEnvOk
    ⟨some ⟨"e1"⟩, some ⟨"e2"⟩, some ⟨"e3"⟩, some ⟨"e4"⟩, some ⟨"e5"⟩, none, none⟩
    ⟨"", none, "h", none, "", none, "b", none⟩ ⟨"c", none, "", none, "t", none, "b", none⟩
    .block rfl rfl rfl (fun hX => by cases hX) (fun f => rfl)
    (fun Y _ _ => by cases Y <;> exact ⟨⟨_, rfl⟩, fun _ => rfl⟩)
    (fun Y _ _ => by cases Y <;> exact ⟨⟨_, rfl⟩, fun _ => rfl⟩)
  ⟨h.1, h.2.1⟩

/-! ## Runs of Init and Close -/

/-- C9: handle validity is an invariant of every state reached from the initial
state by any sequence of flag assignments, calls of `Init` and calls of `Close`,
with arbitrary outcomes.  A handle that is set was stored by a run of `Init` that
created the file for this slot and, for the CPU slot, started sampling on it, and
`Close` has not run since; the file was created in this run of the program; and,
`os.Create` never returning the same file twice, the file has not been closed and
is not a file on which sampling failed to start. -/
theorem handle_valid (steps : List Step) (X : Slot) (f : File)
    (hX : (exec steps).1.handle X = some f) :
    (∃ pre env post, steps = pre ++ Step.init env :: post
        ∧ (∀ c, Step.close c ∉ post)
        ∧ (⟨X, .create ((exec pre).1.flag X) (.ok f)⟩ : Event)
            ∈ (Init env (exec pre).1).events
        ∧ (X = .cpu →
            (⟨.cpu, .startCPUProfile f none⟩ : Event) ∈ (Init env (exec pre).1).events)
        ∧ (Init env (exec pre).1).state.handle X = some f)
    ∧ f ∈ createdFiles (exec steps).2
    ∧ ((createdFiles (exec steps).2).Nodup →
        f ∉ closedFiles (exec steps).2
        ∧ ∀ g e, (⟨.cpu, .startCPUProfile g (some e)⟩ : Event) ∈ (exec steps).2 → g ≠ f) := by
  refine ⟨exec_history steps X f hX, exec_created steps X f hX, fun hfresh => ?_⟩
  obtain ⟨I1, _, I4⟩ := exec_invariant steps hfresh
  obtain ⟨_, h2⟩ := I1 X f hX
  exact ⟨h2, fun g e hg hgf => h2 (hgf ▸ I4 g e hg)⟩

/-- Witness of C9: after a failed start of sampling on file 1, a `Close` and a
successful `Init`, the CPU handle holds file 5, which is open, and not file 1. -/
theorem handle_valid_witness :
    (exec sampleSteps).1.handle .cpu = some ⟨5⟩
    ∧ (createdFiles (exec sampleSteps).2).Nodup
    ∧ (⟨.cpu, .startCPUProfile ⟨1⟩ (some ⟨"cpu profiling already in use"⟩)⟩ : Event)
        ∈ (exec sampleSteps).2
    ∧ (⟨5⟩ : File) ∈ createdFiles (exec sampleSteps).2
    ∧ (⟨5⟩ : File) ∉ closedFiles (exec sampleSteps).2 :=
  have h := handle_valid sampleSteps .cpu ⟨5⟩ (by decide)
  ⟨by decide, by decide, by decide, h.2.1, (h.2.2 (by decide)).1⟩

/-! ## One cycle of Init and Close -/

/-- C10: no file handle leaks over one `Init`/`Close` cycle.  From a state
without open file, for all flags and all outcomes, whether `Init` returns an
error or not: the files closed by `Init` and the following `Close` are the files
`Init` created, in the same order, so every file is closed as many times as it was
created (once, as `os.Create` never returns the same file twice) and a file that
was not created is not closed; `Init` itself closes exactly the file on which
sampling failed to start; `Close` stops sampling if and only if `Init` started
it; and no handle is left afterwards. -/
theorem Init_Close_no_leak (env : InitEnv) (cenv : CloseEnv) (s : State)
    (hnil : ∀ X, s.handle X = none) :
    closedFiles ((Init env s).events ++ (Close cenv (Init env s).state).events)
        = createdFiles (Init env s).events
    ∧ (∀ f, (closedFiles
          ((Init env s).events ++ (Close cenv (Init env s).state).events)).count f
        = (createdFiles (Init env s).events).count f)
    ∧ ((createdFiles (Init env s).events).Nodup →
        ∀ f ∈ createdFiles (Init env s).events,
          (closedFiles
            ((Init env s).events ++ (Close cenv (Init env s).state).events)).count f = 1)
    ∧ (∀ f, f ∉ createdFiles (Init env s).events →
        f ∉ closedFiles ((Init env s).events ++ (Close cenv (Init env s).state).events))
    ∧ (∀ f, f ∈ closedFiles (Init env s).events
        ↔ ∃ e, (⟨.cpu, .startCPUProfile f (some e)⟩ : Event) ∈ (Init env s).events)
    ∧ ((⟨.cpu, .stopCPUProfile⟩ : Event) ∈ (Close cenv (Init env s).state).events
        ↔ ∃ f, (⟨.cpu, .startCPUProfile f none⟩ : Event) ∈ (Init env s).events)
    ∧ (∀ X, (Close cenv (Init env s).state).state.handle X = none) := by
  obtain ⟨h1, h2, h3⟩ := Init_Close_closed_eq env cenv s hnil
  refine ⟨h1, fun f => by rw [h1], fun hnd f hf => ?_, fun f hf => by rw [h1]; exact hf,
    h2, h3, Close_handle cenv _⟩
  rw [h1]
  exact List.count_eq_one_of_mem hnd hf

/-- Witness of C10: CPU and heap are enabled and everything succeeds; the files
1 and 2 are created by `Init` and closed by `Close`. -/
theorem Init_Close_no_leak_witness :
    closedFiles ((Init sampleEnvOk sampleState).events
        ++ (Close sampleCloseEnvFails (Init sampleEnvOk sampleState).state).events)
      = [⟨1⟩, ⟨2⟩]
    ∧ createdFiles (Init sampleEnvOk sampleState).events = [⟨1⟩, ⟨2⟩] :=
  have h := Init_Close_no_leak sampleEnvOk sampleCloseEnvFails sampleState
    (fun X => by cases X <;> rfl)
  ⟨h.1.trans (by decide), by decide⟩

end Commander
